import Mathlib

set_option maxRecDepth 100000

/-!
Shallow embedding of the price-monitoring core of `taobaoScraper.py`
(classes `TaobaoScraper`, `PriceHistoryManager`, `PriceMonitor`,
`SimplePushReporter`).

Python floats are modelled exactly: a value of type `PyFloat` is either a
rational number (the exact value of a finite IEEE-754 binary64 double), or
`inf`, `-inf` or `nan`, and every arithmetic operation rounds its exact
rational result to the nearest double (ties to even), which is precisely
the semantics of CPython float arithmetic.  The sign of zero is collapsed
to a single zero; this is observationally irrelevant for every function
embedded here (a zero is only ever consumed by truthiness tests, by
comparisons, and by formatting paths that are unreachable for zero).

Rationals are represented by a dedicated normalized fraction type `Q`
(rather than Mathlib's `ℚ`, whose arithmetic is irreducible and hence
opaque to kernel evaluation).  Every `Q` built by the operations below is
in lowest terms with a positive denominator, so structural equality
coincides with equality of values.
-/

namespace Taobao

/-- An exact rational number: numerator and (positive) denominator.  All
constructors used below produce the fraction in lowest terms. -/
structure Q where
  num : Int
  den : Nat
deriving DecidableEq

/-- Build a `Q` in lowest terms from a numerator and a positive
denominator (a zero denominator, never supplied, falls back to 0). -/
def qmk (n : Int) (d : Nat) : Q :=
  if d = 0 then ⟨0, 1⟩
  else if n = 0 then ⟨0, 1⟩
  else
    let g := Nat.gcd n.natAbs d
    ⟨n / (g : Int), d / g⟩

def qZero : Q := ⟨0, 1⟩

def qOfInt (n : Int) : Q := ⟨n, 1⟩

def qneg (a : Q) : Q := ⟨-a.num, a.den⟩

def qadd (a b : Q) : Q := qmk (a.num * (b.den : Int) + b.num * (a.den : Int)) (a.den * b.den)

def qsub (a b : Q) : Q := qmk (a.num * (b.den : Int) - b.num * (a.den : Int)) (a.den * b.den)

def qmul (a b : Q) : Q := qmk (a.num * b.num) (a.den * b.den)

/-- Exact division; the divisor is never zero where this is used. -/
def qdiv (a b : Q) : Q :=
  let n : Int := a.num * (b.den : Int)
  let m : Int := (a.den : Int) * b.num
  if m < 0 then qmk (-n) m.natAbs else qmk n m.natAbs

def qlt (a b : Q) : Bool := a.num * (b.den : Int) < b.num * (a.den : Int)

def qle (a b : Q) : Bool := a.num * (b.den : Int) ≤ b.num * (a.den : Int)

def qfloor (a : Q) : Int := Int.fdiv a.num (a.den : Int)

def qceil (a : Q) : Int := -Int.fdiv (-a.num) (a.den : Int)

/-- Number of binary digits of a natural number (`bitlen 0 = 0`,
`2 ^ (bitlen n - 1) ≤ n < 2 ^ bitlen n` for `n > 0`).  Runs on explicit
fuel; fuel `n` always suffices since the recursion depth is at most the
bit count of `n`. -/
def bitlenAux : Nat → Nat → Nat
  | 0, _ => 0
  | f + 1, n => if n = 0 then 0 else bitlenAux f (n / 2) + 1

def bitlen (n : Nat) : Nat := bitlenAux n n

/-- `2 ^ k` as a `Q`, for an integer exponent. -/
def pow2Q (k : Int) : Q :=
  if 0 ≤ k then ⟨(2 ^ k.toNat : Nat), 1⟩ else ⟨1, 2 ^ (-k).toNat⟩

/-- `10 ^ k` as a `Q`, for an integer exponent. -/
def pow10Q (k : Int) : Q :=
  if 0 ≤ k then ⟨(10 ^ k.toNat : Nat), 1⟩ else qmk 1 (10 ^ (-k).toNat)

/-- Decide `q ≥ 2 ^ k` for a positive `q` and integer `k`. -/
def qGe2pow (q : Q) (k : Int) : Bool :=
  if 0 ≤ k then decide (q.num ≥ (2 ^ k.toNat : Int) * (q.den : Int))
  else decide (q.num * (2 ^ (-k).toNat : Int) ≥ (q.den : Int))

/-- Floor of the base-2 logarithm of a positive `q`. -/
def qlog2floor (q : Q) : Int :=
  let k : Int := (bitlen q.num.toNat : Int) - (bitlen q.den : Int)
  if qGe2pow q k then k else k - 1

/-- Round a positive `q` to the nearest IEEE-754 binary64 value (round to
nearest, ties to even), with subnormal handling; the result may exceed the
largest finite double, overflow is detected by the caller. -/
def roundPos (q : Q) : Q :=
  let e : Int := max (qlog2floor q - 52) (-1074)
  let scaled : Q := qdiv q (pow2Q e)
  let m0 : Int := qfloor scaled
  let r : Q := qsub scaled (qOfInt m0)
  let m : Int :=
    if qlt r (qmk 1 2) then m0
    else if qlt (qmk 1 2) r then m0 + 1
    else if m0 % 2 = 0 then m0 else m0 + 1
  qmul (qOfInt m) (pow2Q e)

/-- A CPython float: the exact value of a finite double, or a special. -/
inductive PyFloat where
  | finite (q : Q)
  | inf
  | neginf
  | nan
deriving DecidableEq

/-- Correctly rounded conversion of an exact rational to a double,
overflowing to the infinities exactly as IEEE round-to-nearest does. -/
def toDouble (q : Q) : PyFloat :=
  if q.num = 0 then .finite qZero
  else if 0 < q.num then
    let r := roundPos q
    if qle (pow2Q 1024) r then .inf else .finite r
  else
    let r := roundPos (qneg q)
    if qle (pow2Q 1024) r then .neginf else .finite (qneg r)

/-- CPython float subtraction (IEEE, correctly rounded; no exceptions). -/
def pySub : PyFloat → PyFloat → PyFloat
  | .finite a, .finite b => toDouble (qsub a b)
  | .finite _, .inf => .neginf
  | .finite _, .neginf => .inf
  | .inf, .finite _ => .inf
  | .neginf, .finite _ => .neginf
  | .inf, .neginf => .inf
  | .neginf, .inf => .neginf
  | .inf, .inf => .nan
  | .neginf, .neginf => .nan
  | _, _ => .nan

/-- CPython float multiplication (IEEE, correctly rounded; overflow gives
an infinity, no exception is raised). -/
def pyMul : PyFloat → PyFloat → PyFloat
  | .finite a, .finite b => toDouble (qmul a b)
  | .finite a, .inf => if 0 < a.num then .inf else if a.num < 0 then .neginf else .nan
  | .inf, .finite b => if 0 < b.num then .inf else if b.num < 0 then .neginf else .nan
  | .finite a, .neginf => if 0 < a.num then .neginf else if a.num < 0 then .inf else .nan
  | .neginf, .finite b => if 0 < b.num then .neginf else if b.num < 0 then .inf else .nan
  | .inf, .inf => .inf
  | .inf, .neginf => .neginf
  | .neginf, .inf => .neginf
  | .neginf, .neginf => .inf
  | _, _ => .nan

/-- CPython float division.  `none` models the `ZeroDivisionError` raised
when the divisor is (plus or minus) zero; otherwise IEEE semantics. -/
def pyDiv : PyFloat → PyFloat → Option PyFloat
  | .finite a, .finite b =>
      if b.num = 0 then none else some (toDouble (qdiv a b))
  | .inf, .finite b =>
      if b.num = 0 then none else if 0 < b.num then some .inf else some .neginf
  | .neginf, .finite b =>
      if b.num = 0 then none else if 0 < b.num then some .neginf else some .inf
  | .nan, .finite b => if b.num = 0 then none else some .nan
  | .finite _, .inf => some (.finite qZero)
  | .finite _, .neginf => some (.finite qZero)
  | .inf, .inf => some .nan
  | .inf, .neginf => some .nan
  | .neginf, .inf => some .nan
  | .neginf, .neginf => some .nan
  | _, .nan => some .nan
  | .nan, _ => some .nan

/-- IEEE comparison `x <= y` (false whenever an operand is nan). -/
def pyLe : PyFloat → PyFloat → Bool
  | .nan, _ => false
  | _, .nan => false
  | .neginf, _ => true
  | _, .neginf => false
  | _, .inf => true
  | .inf, _ => false
  | .finite a, .finite b => qle a b

/-- IEEE comparison `x < y` (false whenever an operand is nan). -/
def pyLt : PyFloat → PyFloat → Bool
  | .nan, _ => false
  | _, .nan => false
  | _, .neginf => false
  | .neginf, _ => true
  | .inf, _ => false
  | _, .inf => true
  | .finite a, .finite b => qlt a b

/-- The function `math.ceil` on a float: `none` models the `OverflowError`
or `ValueError` raised on an infinity or nan. -/
def pyCeil : PyFloat → Option Int
  | .finite q => some (qceil q)
  | _ => none

/-- Whitespace as stripped by CPython `float()` (ASCII fragment). -/
def pyIsSpace (c : Char) : Bool :=
  c = ' ' || c = '\t' || c = '\n' || c = '\r' || c = '\x0b' || c = '\x0c'

/-- Longest run of decimal digits at the head of the list, with single
underscores allowed between digits (Python numeric-literal rule); returns
the digits (underscores removed, reversed accumulator) and the rest. -/
def digitRunAux : List Char → List Char → List Char × List Char
  | [], acc => (acc.reverse, [])
  | c :: rest, acc =>
    if c.isDigit then digitRunAux rest (c :: acc)
    else if c = '_' then
      match rest with
      | c2 :: rest2 =>
        if c2.isDigit then digitRunAux rest2 (c2 :: acc)
        else (acc.reverse, c :: c2 :: rest2)
      | [] => (acc.reverse, [c])
    else (acc.reverse, c :: rest)

/-- A digit run must start with a digit; `none` if the head is no digit. -/
def digitRun (cs : List Char) : Option (List Char × List Char) :=
  match cs with
  | c :: _ => if c.isDigit then some (digitRunAux cs []) else none
  | [] => none

def digitsToNat (ds : List Char) : Nat :=
  ds.foldl (fun a c => a * 10 + (c.toNat - 48)) 0

/-- Mantissa part of a CPython float literal:
`digits [. digits?] | . digits`; exact rational value and the rest. -/
def parseNumberCore (cs : List Char) : Option (Q × List Char) :=
  match digitRun cs with
  | some (ip, rest) =>
    match rest with
    | '.' :: r2 =>
      match digitRun r2 with
      | some (fd, r3) =>
          some (qadd (qOfInt (digitsToNat ip)) (qmk (digitsToNat fd) (10 ^ fd.length)), r3)
      | none => some (qOfInt (digitsToNat ip), r2)
    | _ => some (qOfInt (digitsToNat ip), rest)
  | none =>
    match cs with
    | '.' :: r2 =>
      match digitRun r2 with
      | some (fd, r3) => some (qmk (digitsToNat fd) (10 ^ fd.length), r3)
      | none => none
    | _ => none

/-- Optional exponent part `e [sign] digits` of a CPython float literal. -/
def parseExponent (cs : List Char) : Option (Int × List Char) :=
  match cs with
  | c :: rest =>
    if c = 'e' || c = 'E' then
      let sr : Int × List Char :=
        match rest with
        | '+' :: r => (1, r)
        | '-' :: r => (-1, r)
        | _ => (1, rest)
      match digitRun sr.2 with
      | some (ds, r3) => some (sr.1 * (digitsToNat ds : Int), r3)
      | none => none
    else some (0, cs)
  | [] => some (0, [])

/-- The builtin `float(str)` of CPython on ASCII input: strips surrounding
whitespace, accepts an optional sign, `inf`/`infinity`/`nan` (case
insensitive) or a decimal literal with optional exponent, and rounds the
exact decimal value correctly to a double.  `none` models the
`ValueError` raised on any other input. -/
def pyFloatParse (s : String) : Option PyFloat :=
  let cs1 := s.toList.dropWhile pyIsSpace
  let cs := (cs1.reverse.dropWhile pyIsSpace).reverse
  let sb : Int × List Char :=
    match cs with
    | '+' :: r => (1, r)
    | '-' :: r => (-1, r)
    | _ => (1, cs)
  let lower := sb.2.map Char.toLower
  if lower = ['i', 'n', 'f'] || lower = ['i', 'n', 'f', 'i', 'n', 'i', 't', 'y'] then
    some (if sb.1 = 1 then .inf else .neginf)
  else if lower = ['n', 'a', 'n'] then some .nan
  else
    match parseNumberCore sb.2 with
    | none => none
    | some (v, rest) =>
      match parseExponent rest with
      | none => none
      | some (ex, rest2) =>
        if rest2 = [] then some (toDouble (qmul (qmul (qOfInt sb.1) v) (pow10Q ex)))
        else none

/-- Round to the nearest integer, ties to even (the rounding used by
float formatting; a tie can occur, e.g. `0.25` prints as `0.2`). -/
def roundHalfEvenInt (q : Q) : Int :=
  let m0 := qfloor q
  let r := qsub q (qOfInt m0)
  if qlt r (qmk 1 2) then m0
  else if qlt (qmk 1 2) r then m0 + 1
  else if m0 % 2 = 0 then m0 else m0 + 1

/-- Digit string produced by formatting a nonnegative double of exact
value `q` with one decimal place: the decimal representation of the
nearest tenth (correct rounding of the exact binary value, as CPython
float formatting does). -/
def fmtAbs1 (q : Q) : String :=
  let k := (roundHalfEvenInt (qmul (qOfInt 10) q)).toNat
  Nat.repr (k / 10) ++ "." ++ Nat.repr (k % 10)

/-- CPython formatting of a float with one decimal place. -/
def fmt1f (x : PyFloat) : String :=
  match x with
  | .finite q => if q.num < 0 then "-" ++ fmtAbs1 (qneg q) else fmtAbs1 q
  | .inf => "inf"
  | .neginf => "-inf"
  | .nan => "nan"

/-- CPython formatting of a float with one decimal place and a forced
sign. -/
def fmtPlus1f (x : PyFloat) : String :=
  match x with
  | .finite q => if q.num < 0 then "-" ++ fmtAbs1 (qneg q) else "+" ++ fmtAbs1 q
  | .inf => "+inf"
  | .neginf => "-inf"
  | .nan => "+nan"

/-- Value `2.0` of `price_calculation.low_price_threshold` in
`DEFAULT_CONFIG` (exactly representable). -/
def low_price_threshold : PyFloat := .finite (qOfInt 2)

/-- Value `1.5` of `price_calculation.low_price_multiplier` in
`DEFAULT_CONFIG` (exactly representable). -/
def low_price_multiplier : PyFloat := toDouble (qmk 3 2)

/-- Value `1.2` of `price_calculation.high_price_multiplier` in
`DEFAULT_CONFIG` (the double nearest to 6/5, slightly below it). -/
def high_price_multiplier : PyFloat := toDouble (qmk 6 5)

/-- Models `current_price.split("(")[0]`: the text before the first
opening parenthesis. -/
def stripParen (s : String) : String :=
  String.mk (s.toList.takeWhile (fun c => c ≠ '('))

/-- Embedding of `SimplePushReporter.calculate_suggested_price`
(`taobaoScraper.py` lines 894-927), under `DEFAULT_CONFIG`.  The
`try`/`except` returning the sentinel is modelled by the two `none`
branches: `float()` failing on the stripped text, and `math.ceil`
failing on an infinite or nan product.  `math.ceil(x)/10` is integer
true division in Python, i.e. the correctly rounded double of `n/10`. -/
def calculate_suggested_price (current_price : String) : String :=
  match pyFloatParse (stripParen current_price) with
  | none => "无法计算"
  | some price_float =>
    let mult :=
      if pyLe price_float low_price_threshold then low_price_multiplier
      else high_price_multiplier
    match pyCeil (pyMul (pyMul price_float mult) (.finite (qOfInt 10))) with
    | none => "无法计算"
    | some n => fmt1f (toDouble (qmk n 10))

/-- Models `f"{change_rate:+.1f}%" if change_rate else "0%"`
(`taobaoScraper.py` lines 815-817): Python float truthiness is falsity
exactly at (either) zero. -/
def formatChangeRate (x : PyFloat) : String :=
  if x = .finite qZero then "0%" else fmtPlus1f x ++ "%"

/-- Embedding of the change-rate computation inlined in
`PriceMonitor.monitor_prices` (`taobaoScraper.py` lines 808-820):
`change_rate = ((float(new) - float(old)) / float(old)) * 100`, with any
exception (`ValueError` from `float`, `ZeroDivisionError` from the
division) caught and reported as `"未知"`. -/
def computeChangeRateStr (old_price current_price : String) : String :=
  match pyFloatParse old_price with
  | none => "未知"
  | some old_v =>
    match pyFloatParse current_price with
    | none => "未知"
    | some new_v =>
      match pyDiv (pySub new_v old_v) old_v with
      | none => "未知"
      | some r => formatChangeRate (pyMul r (.finite (qOfInt 100)))

/-- One entry of `price_history.json`: the value stored by
`PriceHistoryManager` under one item id. -/
structure PriceRecord where
  name : String
  price : String
  last_update : String
deriving DecidableEq

/-- The in-memory `self.price_history` dict, as an association list
keyed by item id (a Python dict holds at most one entry per key; lookup
and in-place update below act on the first occurrence). -/
abbrev History := List (String × PriceRecord)

/-- Dict lookup: `self.price_history[item_id]`, `none` when
`item_id not in self.price_history`. -/
def lookupH : History → String → Option PriceRecord
  | [], _ => none
  | (k, r) :: t, i => if k = i then some r else lookupH t i

/-- Dict update in place: replaces the record stored under the id (the
list is unchanged when the id is absent; callers only update present
ids). -/
def updateH : History → String → PriceRecord → History
  | [], _, _ => []
  | (k, r) :: t, i, r2 => if k = i then (k, r2) :: t else (k, r) :: updateH t i r2

/-- Result dict of `check_price_change`. -/
structure CheckResult where
  is_new_item : Bool
  has_changed : Bool
  old_price : Option String
deriving DecidableEq

/-- Embedding of `PriceHistoryManager.check_price_change`
(`taobaoScraper.py` lines 458-491).  `datetime.now()` is abstracted into
the explicit `timestamp` argument; the function returns the mutated
history together with the result dict.  For a known id the name is
always overwritten with the supplied name before the price comparison;
price and timestamp are rewritten only when the stored and supplied
price strings differ. -/
def check_price_change (hist : History) (item_id product_name current_price timestamp : String) :
    History × CheckResult :=
  match lookupH hist item_id with
  | none =>
      (hist ++ [(item_id, ⟨product_name, current_price, timestamp⟩)],
       ⟨true, false, none⟩)
  | some r =>
      if r.price ≠ current_price then
        (updateH hist item_id ⟨product_name, current_price, timestamp⟩,
         ⟨false, true, some r.price⟩)
      else
        (updateH hist item_id ⟨product_name, r.price, r.last_update⟩,
         ⟨false, false, some r.price⟩)

/-- Outcome of one extraction strategy as observed by the loop in
`extract_price`: the call either raised (caught by the outer
`except`) or returned `None` or a string. -/
inductive StratOutcome where
  | raised
  | returned (r : Option String)
deriving DecidableEq

/-- Leftmost match of the validation regex `(\d+(?:\.\d+)?)` in a
string: the first maximal digit run, extended by a fractional part when
a dot followed by a digit comes directly after.  (Greedy matching of
this pattern never backtracks.) -/
def firstDecimalGroup (cs : List Char) : Option (List Char) :=
  match (cs.dropWhile (fun c => !c.isDigit)) with
  | [] => none
  | c :: rest =>
    let ds := c :: rest.takeWhile Char.isDigit
    let after := rest.dropWhile Char.isDigit
    match after with
    | '.' :: r2 =>
      match r2 with
      | d :: _ =>
        if d.isDigit then some (ds ++ '.' :: r2.takeWhile Char.isDigit)
        else some ds
      | [] => some ds
    | _ => some ds

/-- Validation applied by `extract_price` to a strategy result
(`taobaoScraper.py` lines 234-247): `re.search(r"(\d+(?:\.\d+)?)",
price)` must match; the subsequent `float(...)` of the matched group
never raises (the group is a plain decimal literal; an overlong one
converts to `inf` without an exception), so validation succeeds exactly
when the search finds a match, i.e. when the string holds a digit
anywhere. -/
def validatePrice (p : String) : Bool := (firstDecimalGroup p.toList).isSome

/-- The valid outcome of one strategy as consumed by the loop: the
returned string when it is truthy (non-empty) and passes validation. -/
def validOf : StratOutcome → Option String
  | .raised => none
  | .returned none => none
  | .returned (some p) => if p ≠ "" && validatePrice p then some p else none

/-- The strategy loop of `extract_price`: the `price` variable is falsy
(`None` or `""`) at the start of every iteration, so the loop is the
first-hit scan over the strategies' valid outcomes. -/
def extractPriceLoop : List StratOutcome → Option String
  | [] => none
  | o :: rest =>
    match validOf o with
    | some p => some p
    | none => extractPriceLoop rest

/-- Embedding of `TaobaoScraper.extract_price` (`taobaoScraper.py`
lines 220-294) with the loaded page abstracted into the outcomes of the
three strategies `_extract_price_strategy_1/2/3` tried in this order.
The debug side effects (page dump, screenshot) do not influence the
returned pair and are not modelled. -/
def extract_price (s1 s2 s3 : StratOutcome) : String × Bool :=
  match extractPriceLoop [s1, s2, s3] with
  | some p => (p, true)
  | none => ("未找到价格", false)

/-- Greedy match of the capture group `(\d+(?:\.\d+)?)` at the head of
the list: the digit run, extended by `.digits` when a dot directly
followed by a digit comes next; returns the group and the rest.  For
this group, and in every pattern below, greedy matching is
deterministic: shortening a digit run leaves a digit as the next
character, which no continuation of any pattern below can consume. -/
def scanDecimal (cs : List Char) : Option (List Char × List Char) :=
  match cs with
  | c :: rest =>
    if c.isDigit then
      let ds := c :: rest.takeWhile Char.isDigit
      let after := rest.dropWhile Char.isDigit
      match after with
      | '.' :: d :: r2 =>
        if d.isDigit then
          some (ds ++ '.' :: d :: r2.takeWhile Char.isDigit, r2.dropWhile Char.isDigit)
        else some (ds, after)
      | _ => some (ds, after)
    else none
  | [] => none

/-- The scan loop of `re.findall`: at each position try the pattern
step; on a match emit the group and resume after the match
(non-overlapping), otherwise advance one character.  Runs on fuel; every
successful step consumes at least one character, so fuel
`length + 1` is exact. -/
def findallAux (step : List Char → Option (List Char × List Char)) :
    Nat → List Char → List (List Char)
  | 0, _ => []
  | _, [] => []
  | f + 1, cs =>
    match step cs with
    | some (g, r) => g :: findallAux step f r
    | none => findallAux step f cs.tail

def findall (step : List Char → Option (List Char × List Char)) (cs : List Char) :
    List (List Char) :=
  findallAux step (cs.length + 1) cs

def isYen (c : Char) : Bool := c = '¥' || c = '￥'

/-- Pattern 1 of `_extract_price_strategy_3`:
`(?:¥|￥)\s*(\d+(?:\.\d+)?)` tried at one position. -/
def stepP1 (cs : List Char) : Option (List Char × List Char) :=
  match cs with
  | c :: rest => if isYen c then scanDecimal (rest.dropWhile pyIsSpace) else none
  | [] => none

/-- One alternative of pattern 2: a literal label, then the lazy gap
`.{0,10}?` (at most ten characters, none of them a newline) up to the
first digit, then the decimal group. -/
def stepLabelGap (label cs : List Char) : Option (List Char × List Char) :=
  if label.isPrefixOf cs then
    let after := cs.drop label.length
    let gap := after.takeWhile (fun c => !c.isDigit)
    if gap.length ≤ 10 && gap.all (fun c => c ≠ '\n') then
      scanDecimal (after.drop gap.length)
    else none
  else none

/-- Pattern 2 of `_extract_price_strategy_3`:
`(?:价格|促销价|折后价).{0,10}?(\d+(?:\.\d+)?)` tried at one position. -/
def stepP2 (cs : List Char) : Option (List Char × List Char) :=
  match stepLabelGap "价格".toList cs with
  | some r => some r
  | none =>
    match stepLabelGap "促销价".toList cs with
    | some r => some r
    | none => stepLabelGap "折后价".toList cs

/-- Pattern 3 of `_extract_price_strategy_3`:
`(\d+(?:\.\d+)?)\s*(?:元|块钱)` tried at one position. -/
def stepP3 (cs : List Char) : Option (List Char × List Char) :=
  match scanDecimal cs with
  | some (g, r1) =>
    match r1.dropWhile pyIsSpace with
    | '元' :: r3 => some (g, r3)
    | '块' :: '钱' :: r3 => some (g, r3)
    | _ => none
  | none => none

/-- One alternative of pattern 4: a literal label, then the lazy gap
`\D*?` (any characters, none of them a digit) up to the first digit,
then the decimal group; fails when no digit follows at all. -/
def stepLabelAnyGap (label cs : List Char) : Option (List Char × List Char) :=
  if label.isPrefixOf cs then
    scanDecimal ((cs.drop label.length).dropWhile (fun c => !c.isDigit))
  else none

/-- Pattern 4 of `_extract_price_strategy_3`:
`(?:价格|价钱)\D*?(\d+(?:\.\d+)?)` tried at one position. -/
def stepP4 (cs : List Char) : Option (List Char × List Char) :=
  match stepLabelAnyGap "价格".toList cs with
  | some r => some r
  | none => stepLabelAnyGap "价钱".toList cs

/-- Exact value of a matched group (digits, optionally dot digits). -/
def groupToQ (g : List Char) : Q :=
  let ip := g.takeWhile Char.isDigit
  match g.dropWhile Char.isDigit with
  | '.' :: fd => qadd (qOfInt (digitsToNat ip)) (qmk (digitsToNat fd) (10 ^ fd.length))
  | _ => qOfInt (digitsToNat ip)

/-- `float(p)` for a matched group, used as filter bound and sort key. -/
def priceKey (g : List Char) : PyFloat := toDouble (groupToQ g)

/-- The range filter of `_extract_price_strategy_3`:
`float(p) > 0 and float(p) < 100000`. -/
def validFilter (ms : List (List Char)) : List (List Char) :=
  ms.filter (fun g =>
    pyLt (.finite qZero) (priceKey g) && pyLt (priceKey g) (.finite (qOfInt 100000)))

/-- Scan for the earliest element with the smallest `float` key: a later
element replaces the current best only when its key is strictly
smaller. -/
def firstMinAux : List Char → List (List Char) → List Char
  | best, [] => best
  | best, g :: rest =>
    if pyLt (priceKey g) (priceKey best) then firstMinAux g rest
    else firstMinAux best rest

/-- First element with the smallest `float` key, i.e.
`sorted(valid_prices, key=float)[0]` (Python's sort is stable, so ties
keep the earliest element). -/
def firstMinByKey : List (List Char) → Option (List Char)
  | [] => none
  | g :: rest => some (firstMinAux g rest)

/-- The result of trying one pattern in `_extract_price_strategy_3`:
all matches, range filter, smallest survivor (`none` both when the
pattern has no match and when no match is in range, in which case the
loop falls through to the next pattern either way). -/
def tryPattern (step : List Char → Option (List Char × List Char)) (cs : List Char) :
    Option String :=
  (firstMinByKey (validFilter (findall step cs))).map String.mk

/-- Embedding of `TaobaoScraper._extract_price_strategy_3`
(`taobaoScraper.py` lines 390-419) with the page abstracted into its
visible text: the four price patterns are tried in order and the first
pattern yielding an in-range match decides the result. -/
def strategy_3 (page_text : String) : Option String :=
  let cs := page_text.toList
  match tryPattern stepP1 cs with
  | some p => some p
  | none =>
    match tryPattern stepP2 cs with
    | some p => some p
    | none =>
      match tryPattern stepP3 cs with
      | some p => some p
      | none => tryPattern stepP4 cs

/-- Modelled from the spec (claim C2 reading): collect the matches of
all four patterns over the page text into one pool, discard the
out-of-range ones and return the smallest survivor.  Used only to
compare the claim's statement with `strategy_3`. -/
def strategy3AllPooled (page_text : String) : Option String :=
  let cs := page_text.toList
  (firstMinByKey (validFilter
      (findall stepP1 cs ++ findall stepP2 cs ++ findall stepP3 cs ++ findall stepP4 cs))).map
    String.mk

/-- Substring test, modelling Python's `in` on strings. -/
def containsSub (hay needle : List Char) : Bool :=
  match hay with
  | [] => needle.isEmpty
  | c :: t => needle.isPrefixOf (c :: t) || containsSub t needle

def schemeChar (c : Char) : Bool :=
  c.isAlpha || c.isDigit || c = '+' || c = '-' || c = '.'

/-- Scheme removal of `urllib.parse.urlsplit`: when the text before the
first colon is a well-formed scheme, everything after that colon
remains. -/
def dropScheme (cs : List Char) : List Char :=
  match cs.findIdx? (fun c => c = ':') with
  | some i =>
    match cs with
    | c0 :: _ =>
      if 0 < i && c0.isAlpha && (cs.take i).all schemeChar then cs.drop (i + 1) else cs
    | [] => cs
  | none => cs

/-- The `netloc` and `query` components as computed by
`urllib.parse.urlparse`: the netloc is present only after `//` and runs
to the first of `/`, `?`, `#`; the fragment is split off at the first
`#`, then the query is what follows the first `?`. -/
def urlparseNetlocQuery (url : String) : List Char × List Char :=
  let cs1 := dropScheme url.toList
  let nl : List Char × List Char :=
    match cs1 with
    | '/' :: '/' :: r =>
      (r.takeWhile (fun c => c ≠ '/' && c ≠ '?' && c ≠ '#'),
       r.dropWhile (fun c => c ≠ '/' && c ≠ '?' && c ≠ '#'))
    | _ => ([], cs1)
  let beforeFrag := nl.2.takeWhile (fun c => c ≠ '#')
  let query : List Char :=
    match beforeFrag.dropWhile (fun c => c ≠ '?') with
    | '?' :: q => q
    | _ => []
  (nl.1, query)

/-- Split a character list on a separator character. -/
def splitOnChar (sep : Char) : List Char → List (List Char)
  | [] => [[]]
  | c :: rest =>
    match splitOnChar sep rest with
    | [] => [[]]
    | h :: t => if c = sep then [] :: h :: t else (c :: h) :: t

/-- First value of the `id` key as produced by
`urllib.parse.parse_qs(query)["id"][0]`: the query splits on `&`, a part
without `=` or with a blank value is dropped, and the part's key is the
text before its first `=`.  (Percent- and plus-decoding of the value,
irrelevant for numeric ids, is not modelled.) -/
def qsFirstIdValue (query : List Char) : Option String :=
  ((splitOnChar '&' query).filterMap (fun part =>
    if ("id=".toList).isPrefixOf part then
      match part.drop 3 with
      | [] => none
      | v => some (String.mk v)
    else none)).head?

/-- Embedding of `PriceMonitor.extract_item_id` (`taobaoScraper.py`
lines 721-728): the first `id` query value, but only when the parsed
netloc has `"taobao.com"` as a substring. -/
def extract_item_id (url : String) : Option String :=
  let nq := urlparseNetlocQuery url
  if containsSub nq.1 "taobao.com".toList then qsFirstIdValue nq.2 else none

/-- Models `monitor_prices` lines 771-776: a product whose URL yields no
item id is skipped (`continue`) by the orchestrator. -/
def monitorSkipsProduct (url : String) : Bool := (extract_item_id url).isNone

/-- Modelled from the spec (claim C1 wording): validation accepts a
string whose leading substring matches the regex and converts to a
finite positive number.  Used only to compare the claim's notion of
validation with the one in the code. -/
def specValidate (p : String) : Bool :=
  match scanDecimal p.toList with
  | none => false
  | some (g, _) =>
    match toDouble (groupToQ g) with
    | .finite v => qlt qZero v
    | _ => false

/-- Modelled from the spec (claim C7 wording): the suggested price in
exact arithmetic, `ceil(v * 1.5 * 10) / 10` for `v <= 2` and
`ceil(v * 1.2 * 10) / 10` otherwise, formatted to one decimal place.
Used only to compare the claim's exact formula with the code's double
arithmetic. -/
def specSuggestedExact (v : Q) : String :=
  let n : Int :=
    if qle v (qOfInt 2) then qceil (qmul (qmul v (qmk 3 2)) (qOfInt 10))
    else qceil (qmul (qmul v (qmk 6 5)) (qOfInt 10))
  fmt1f (.finite (qmk n 10))

/-- The leading decimal of a string, per the claim C8 wording. -/
def leadingDecimal (s : String) : Option Q :=
  (scanDecimal s.toList).map (fun gr => groupToQ gr.1)

/-- Modelled from the spec (claim C8 wording): strip the parenthetical
qualifier, parse the leading decimal of the remainder and apply the
suggestion formula; sentinel only when no leading decimal exists.  Used
only to compare the claim's reading with the code. -/
def specCalcLeading (s : String) : String :=
  match leadingDecimal (stripParen s) with
  | none => "无法计算"
  | some v => specSuggestedExact v

/-- Lookup after appending a fresh id finds the appended record. -/
theorem lookupH_append_right (h : History) (i : String) (r : PriceRecord)
    (hnone : lookupH h i = none) : lookupH (h ++ [(i, r)]) i = some r := by
  induction h with
  | nil => simp [lookupH]
  | cons p t ih =>
    by_cases hk : p.1 = i
    · simp [lookupH, hk] at hnone
    · simp [lookupH, hk] at hnone ⊢
      exact ih hnone

/-- Lookup after an in-place update of a present id finds the new
record. -/
theorem lookupH_updateH (h : History) (i : String) (r r2 : PriceRecord)
    (hsome : lookupH h i = some r) : lookupH (updateH h i r2) i = some r2 := by
  induction h with
  | nil => simp [lookupH] at hsome
  | cons p t ih =>
    by_cases hk : p.1 = i
    · simp [lookupH, updateH, hk]
    · simp [lookupH, updateH, hk] at hsome ⊢
      exact ih hsome

/-- Updating a present id with the very record it stores is the
identity. -/
theorem updateH_self (h : History) (i : String) (r : PriceRecord)
    (hsome : lookupH h i = some r) : updateH h i r = h := by
  induction h with
  | nil => rfl
  | cons p t ih =>
    obtain ⟨k, v⟩ := p
    by_cases hk : k = i
    · simp [lookupH, hk] at hsome
      simp [updateH, hk, hsome]
    · simp [lookupH, hk] at hsome
      simp [updateH, hk]
      exact ih hsome

/-- `takeWhile` of not-a-parenthesis keeps exactly the prefix before an
explicit parenthesis. -/
theorem takeWhileNeParen (l r : List Char) (h : ∀ c ∈ l, c ≠ '(') :
    (l ++ '(' :: r).takeWhile (fun c => c ≠ '(') = l := by
  induction l with
  | nil => simp [List.takeWhile]
  | cons a t ih =>
    have ha : a ≠ '(' := h a (by simp)
    have hsub : ∀ c ∈ t, c ≠ '(' := fun c hc => h c (by simp [hc])
    simp [List.takeWhile, ha]
    simpa using ih hsub

/-- `takeWhile` of not-a-parenthesis is the identity on parenthesis-free
lists. -/
theorem takeWhileNeParenAll (l : List Char) (h : ∀ c ∈ l, c ≠ '(') :
    l.takeWhile (fun c => c ≠ '(') = l := by
  induction l with
  | nil => rfl
  | cons a t ih =>
    have ha : a ≠ '(' := h a (by simp)
    have hsub : ∀ c ∈ t, c ≠ '(' := fun c hc => h c (by simp [hc])
    simp [List.takeWhile, ha]
    simpa using ih hsub

/-- C1 (amended): `extract_price` tries the three strategies in the fixed
order 1, 2, 3 and stops at the first outcome that is a non-empty string
passing the code's validation (which requires a substring matching
`\d+(\.\d+)?` anywhere in the string, with no positivity, finiteness or
leading-position requirement), returning that value with success `true`;
in particular, a valid strategy-2 value is returned whenever strategy 1
yields nothing valid, and when no strategy yields a valid value the
result is `("未找到价格", false)`. -/
theorem extract_price_chain (s1 s2 s3 : StratOutcome) :
    (∀ p, validOf s1 = some p → extract_price s1 s2 s3 = (p, true))
    ∧ (validOf s1 = none → ∀ p, validOf s2 = some p →
        extract_price s1 s2 s3 = (p, true))
    ∧ (validOf s1 = none → validOf s2 = none → ∀ p, validOf s3 = some p →
        extract_price s1 s2 s3 = (p, true))
    ∧ (validOf s1 = none → validOf s2 = none → validOf s3 = none →
        extract_price s1 s2 s3 = ("未找到价格", false)) := by
  refine ⟨?_, ?_, ?_, ?_⟩
  · intro p h1
    simp [extract_price, extractPriceLoop, h1]
  · intro h1 p h2
    simp [extract_price, extractPriceLoop, h1, h2]
  · intro h1 h2 p h3
    simp [extract_price, extractPriceLoop, h1, h2, h3]
  · intro h1 h2 h3
    simp [extract_price, extractPriceLoop, h1, h2, h3]

/-- Witness for C1: strategy 1 yields nothing, strategy 2 a validated
value, strategy 3 raises; the overall result is strategy 2's value. -/
theorem extract_price_chain_witness :
    extract_price (.returned none) (.returned (some "12.5")) .raised = ("12.5", true) :=
  (extract_price_chain (.returned none) (.returned (some "12.5")) .raised).2.1
    rfl "12.5" (by decide)

/-- Counterexample for C1 as stated: the value `"0"` does not pass the
claim's validation (not convertible to a positive number), so by the
claim a run where every strategy yields at best `"0"` should end in
`("未找到价格", false)`; the code accepts `"0"` and returns it with
success `true`. -/
theorem extract_price_positivity_cex :
    extract_price (.returned (some "0")) (.returned none) (.returned none) = ("0", true)
    ∧ specValidate "0" = false := by decide

/-- C2 (amended): `_extract_price_strategy_3` tries its four regex
patterns in order and the result is decided by the first pattern with at
least one match in the open range (0, 100000): the earliest of its
in-range matches with the smallest `float` value.  Matches of later
patterns are never consulted, and when no pattern has an in-range match
the strategy yields nothing. -/
theorem strategy3_pattern_order (text : String) :
    (validFilter (findall stepP1 text.toList) ≠ [] →
      strategy_3 text
        = (firstMinByKey (validFilter (findall stepP1 text.toList))).map String.mk)
    ∧ (validFilter (findall stepP1 text.toList) = [] →
        validFilter (findall stepP2 text.toList) ≠ [] →
      strategy_3 text
        = (firstMinByKey (validFilter (findall stepP2 text.toList))).map String.mk)
    ∧ (validFilter (findall stepP1 text.toList) = [] →
        validFilter (findall stepP2 text.toList) = [] →
        validFilter (findall stepP3 text.toList) ≠ [] →
      strategy_3 text
        = (firstMinByKey (validFilter (findall stepP3 text.toList))).map String.mk)
    ∧ (validFilter (findall stepP1 text.toList) = [] →
        validFilter (findall stepP2 text.toList) = [] →
        validFilter (findall stepP3 text.toList) = [] →
        validFilter (findall stepP4 text.toList) ≠ [] →
      strategy_3 text
        = (firstMinByKey (validFilter (findall stepP4 text.toList))).map String.mk)
    ∧ (validFilter (findall stepP1 text.toList) = [] →
        validFilter (findall stepP2 text.toList) = [] →
        validFilter (findall stepP3 text.toList) = [] →
        validFilter (findall stepP4 text.toList) = [] →
      strategy_3 text = none) := by
  refine ⟨?_, ?_, ?_, ?_, ?_⟩
  · intro h1
    cases hv : validFilter (findall stepP1 text.toList) with
    | nil => exact absurd hv h1
    | cons g rest =>
      have hv2 : validFilter (findall stepP1 text.data) = g :: rest := hv
      simp [strategy_3, tryPattern, hv2, firstMinByKey]
  · intro h1 h2
    cases hv : validFilter (findall stepP2 text.toList) with
    | nil => exact absurd hv h2
    | cons g rest =>
      have h1d : validFilter (findall stepP1 text.data) = [] := h1
      have hv2 : validFilter (findall stepP2 text.data) = g :: rest := hv
      simp [strategy_3, tryPattern, h1d, hv2, firstMinByKey]
  · intro h1 h2 h3
    cases hv : validFilter (findall stepP3 text.toList) with
    | nil => exact absurd hv h3
    | cons g rest =>
      have h1d : validFilter (findall stepP1 text.data) = [] := h1
      have h2d : validFilter (findall stepP2 text.data) = [] := h2
      have hv2 : validFilter (findall stepP3 text.data) = g :: rest := hv
      simp [strategy_3, tryPattern, h1d, h2d, hv2, firstMinByKey]
  · intro h1 h2 h3 h4
    cases hv : validFilter (findall stepP4 text.toList) with
    | nil => exact absurd hv h4
    | cons g rest =>
      have h1d : validFilter (findall stepP1 text.data) = [] := h1
      have h2d : validFilter (findall stepP2 text.data) = [] := h2
      have h3d : validFilter (findall stepP3 text.data) = [] := h3
      have hv2 : validFilter (findall stepP4 text.data) = g :: rest := hv
      simp [strategy_3, tryPattern, h1d, h2d, h3d, hv2, firstMinByKey]
  · intro h1 h2 h3 h4
    have h1d : validFilter (findall stepP1 text.data) = [] := h1
    have h2d : validFilter (findall stepP2 text.data) = [] := h2
    have h3d : validFilter (findall stepP3 text.data) = [] := h3
    have h4d : validFilter (findall stepP4 text.data) = [] := h4
    simp [strategy_3, tryPattern, h1d, h2d, h3d, h4d, firstMinByKey]

/-- Witness for C2: on a page text with `¥999999` and `¥9.9`, pattern 1
matches both, `999999` is discarded as out of range and `9.9` survives:
the claim's own example. -/
theorem strategy3_pattern_order_witness :
    strategy_3 "¥999999 ¥9.9" = some "9.9" :=
  ((strategy3_pattern_order "¥999999 ¥9.9").1 (by decide)).trans (by decide)

/-- Counterexample for C2 as stated: on the page text `"¥50 3元"` the
pooled all-pattern reading of the claim gives the smallest in-range
match `"3"` (from pattern 3), but the code returns `"50"`, the best
match of the first pattern with any in-range match. -/
theorem strategy3_pooled_cex :
    strategy_3 "¥50 3元" = some "50" ∧ strategy3AllPooled "¥50 3元" = some "3" := by
  decide

/-- C3: for a known id with a different price string (raw string
inequality), `check_price_change` overwrites the record with the new
name, price and timestamp, flags `has_changed` and returns the stored
price as `old_price`. -/
theorem check_price_change_changed (hist : History) (i : String) (r : PriceRecord)
    (n p t : String) (h : lookupH hist i = some r) (hne : r.price ≠ p) :
    check_price_change hist i n p t
      = (updateH hist i ⟨n, p, t⟩, ⟨false, true, some r.price⟩) := by
  simp [check_price_change, h, hne]

/-- Witness for C3: stored `"10.0"`, supplied `"12.0"`. -/
theorem check_price_change_changed_witness :
    check_price_change [("123", ⟨"item", "10.0", "t0"⟩)] "123" "item" "12.0" "t1"
      = ([("123", ⟨"item", "12.0", "t1"⟩)], ⟨false, true, some "10.0"⟩) :=
  (check_price_change_changed [("123", ⟨"item", "10.0", "t0"⟩)] "123"
    ⟨"item", "10.0", "t0"⟩ "item" "12.0" "t1" (by decide) (by decide)).trans (by decide)

/-- C4: for an unknown id, `check_price_change` appends a record with
the given name, price and timestamp and returns `is_new_item = true`,
`has_changed = false`, `old_price = none`. -/
theorem check_price_change_new (hist : History) (i n p t : String)
    (h : lookupH hist i = none) :
    check_price_change hist i n p t
      = (hist ++ [(i, ⟨n, p, t⟩)], ⟨true, false, none⟩) := by
  simp [check_price_change, h]

/-- Witness for C4: an empty history. -/
theorem check_price_change_new_witness :
    check_price_change [] "123" "item" "12.0" "t1"
      = ([("123", ⟨"item", "12.0", "t1"⟩)], ⟨true, false, none⟩) :=
  (check_price_change_new [] "123" "item" "12.0" "t1" rfl).trans (by decide)

/-- C5: `check_price_change` is idempotent: after a first call, a second
call with the identical id, name and price (timestamps may differ)
reports `has_changed = false`. -/
theorem check_price_change_idempotent (hist : History) (i n p t1 t2 : String) :
    ((check_price_change (check_price_change hist i n p t1).1 i n p t2).2).has_changed
      = false := by
  cases h : lookupH hist i with
  | none =>
      have h2 := lookupH_append_right hist i ⟨n, p, t1⟩ h
      simp [check_price_change, h, h2]
  | some r =>
      by_cases hp : r.price = p
      · subst hp
        have h2 := lookupH_updateH hist i r ⟨n, r.price, r.last_update⟩ h
        simp [check_price_change, h, h2]
      · have h2 := lookupH_updateH hist i r ⟨n, p, t1⟩ h
        simp [check_price_change, h, hp, h2]

/-- C6 (amended): for a known id with the identical price string,
`check_price_change` keeps the record's price and timestamp and returns
both flags false with the stored price as `old_price`; however the name
field is still overwritten with the supplied name, so the store is left
unmutated exactly when the supplied name equals the stored one. -/
theorem check_price_change_same_price (hist : History) (i : String) (r : PriceRecord)
    (n p t : String) (h : lookupH hist i = some r) (hp : r.price = p) :
    check_price_change hist i n p t
        = (updateH hist i ⟨n, r.price, r.last_update⟩, ⟨false, false, some r.price⟩)
      ∧ (n = r.name → updateH hist i ⟨n, r.price, r.last_update⟩ = hist) := by
  constructor
  · simp [check_price_change, h, hp]
  · intro hn
    have hr : (⟨n, r.price, r.last_update⟩ : PriceRecord) = r := by rw [hn]
    rw [hr]
    exact updateH_self hist i r h

/-- Witness for C6: identical price and identical name leave the store
untouched. -/
theorem check_price_change_same_price_witness :
    check_price_change [("9", ⟨"nm", "5.0", "t0"⟩)] "9" "nm" "5.0" "t9"
      = ([("9", ⟨"nm", "5.0", "t0"⟩)], ⟨false, false, some "5.0"⟩) := by
  have h := check_price_change_same_price [("9", ⟨"nm", "5.0", "t0"⟩)] "9"
    ⟨"nm", "5.0", "t0"⟩ "nm" "5.0" "t9" (by decide) (by decide)
  rw [h.1, h.2 rfl]

/-- Counterexample for C6 as stated: a call with the identical price but
a different name returns both flags false yet mutates the store (the
record's name field is overwritten). -/
theorem check_price_change_mutates_name_cex :
    (check_price_change [("123", ⟨"old name", "10.0", "t0"⟩)] "123" "new name" "10.0" "t1").1
      ≠ [("123", ⟨"old name", "10.0", "t0"⟩)]
    ∧ (check_price_change [("123", ⟨"old name", "10.0", "t0"⟩)] "123" "new name" "10.0" "t1").2
      = ⟨false, false, some "10.0"⟩ := by decide

/-- C7 (amended): for an input whose paren-stripped text parses to a
finite double `v`, `calculate_suggested_price` returns
`ceil(v * m * 10) / 10` formatted to one decimal place, where `m` is the
low multiplier 1.5 for `v ≤ 2` and the high multiplier 1.2 otherwise and
every step is IEEE double arithmetic (the multiplier 1.2 itself being
the double nearest to 6/5); because of double rounding the result can
differ from the exact formula, e.g. on input `"0.2"`. -/
theorem calculate_suggested_price_double (s : String) (v : Q) (n : Int)
    (hv : pyFloatParse (stripParen s) = some (.finite v))
    (hn : pyCeil (pyMul (pyMul (.finite v)
        (if pyLe (.finite v) low_price_threshold then low_price_multiplier
         else high_price_multiplier)) (.finite (qOfInt 10))) = some n) :
    calculate_suggested_price s = fmt1f (toDouble (qmk n 10)) := by
  simp [calculate_suggested_price, hv, hn]

/-- Witness for C7: the two examples of the claim, `"1.0" → "1.5"` and
`"3.0" → "3.6"`, hold under double arithmetic. -/
theorem calculate_suggested_price_double_witness :
    calculate_suggested_price "1.0" = "1.5" ∧ calculate_suggested_price "3.0" = "3.6" :=
  ⟨(calculate_suggested_price_double "1.0" (qOfInt 1) 15 (by decide) (by decide)).trans
      (by decide),
   (calculate_suggested_price_double "3.0" (qOfInt 3) 36 (by decide) (by decide)).trans
      (by decide)⟩

/-- Counterexample for C7 as stated: the numeric value of `"0.2"` is
1/5, and the claim's exact formula gives ceil(1/5 × 1.5 × 10)/10 =
3/10 = `"0.3"`; the code computes in doubles, where 0.2 × 1.5 × 10
rounds to 3.0000000000000004, and returns `"0.4"`. -/
theorem calculate_suggested_price_float_cex :
    groupToQ "0.2".toList = qmk 1 5
    ∧ calculate_suggested_price "0.2" = "0.4"
    ∧ specSuggestedExact (qmk 1 5) = "0.3" := by decide

/-- C8 (amended): `calculate_suggested_price` strips the input from the
first `"("` onward and parses the whole remainder with `float()` (so a
remainder with trailing non-numeric text is unparseable); whenever the
remainder does not parse it returns the sentinel `"无法计算"`, and it
never raises (it is a total function). -/
theorem calculate_suggested_price_strip_and_fail :
    (∀ s t : String, '(' ∉ s.toList →
      calculate_suggested_price (s ++ "(" ++ t) = calculate_suggested_price s)
    ∧ (∀ s : String, pyFloatParse (stripParen s) = none →
      calculate_suggested_price s = "无法计算") := by
  constructor
  · intro s t h
    have hchars : ∀ c ∈ s.toList, c ≠ '(' := by
      intro c hc heq
      exact h (heq ▸ hc)
    have hs1 : stripParen (s ++ "(" ++ t) = String.mk s.toList := by
      unfold stripParen
      show String.mk (((s ++ "(" ++ t).data).takeWhile fun c => c ≠ '(') = _
      rw [String.data_append, String.data_append]
      show String.mk ((s.data ++ ['('] ++ t.data).takeWhile fun c => c ≠ '(') = _
      rw [List.append_assoc, List.singleton_append]
      rw [takeWhileNeParen s.data t.data hchars]
      rfl
    have hs2 : stripParen s = String.mk s.toList := by
      unfold stripParen
      rw [takeWhileNeParenAll s.toList hchars]
    unfold calculate_suggested_price
    rw [hs1, hs2]
  · intro s h
    simp [calculate_suggested_price, h]

/-- Witness for C8: the claim's qualifier-style example returns the
sentinel, and a parseable prefix is unaffected by a parenthetical
qualifier. -/
theorem calculate_suggested_price_strip_and_fail_witness :
    calculate_suggested_price ("free" ++ "(" ++ "需登录查看完整价格)") = "无法计算"
    ∧ calculate_suggested_price ("2.0" ++ "(" ++ "需登录)") = calculate_suggested_price "2.0" :=
  ⟨calculate_suggested_price_strip_and_fail.2 ("free" ++ "(" ++ "需登录查看完整价格)")
      (by decide),
   calculate_suggested_price_strip_and_fail.1 "2.0" "需登录)" (by decide)⟩

/-- Counterexample for C8 as stated: `"1.5元"` has the leading decimal
1.5, so by the claim the suggestion (exact formula: `"2.3"`) would be
computed; the code hands the entire remainder to `float()`, which fails,
and returns the sentinel. -/
theorem calculate_suggested_price_parse_cex :
    calculate_suggested_price "1.5元" = "无法计算" ∧ specCalcLeading "1.5元" = "2.3" := by
  decide

/-- C9: the orchestrator's change rate is `(new - old) / old * 100` over
the float values of the two price strings (IEEE double arithmetic,
formatted with a forced sign and one decimal, zero printed as `"0%"`),
and it reports `"未知"` whenever the old price does not parse as a float
or parses to zero. -/
theorem change_rate_formula :
    (∀ old new : String, pyFloatParse old = none →
      computeChangeRateStr old new = "未知")
    ∧ (∀ old new : String, pyFloatParse old = some (.finite qZero) →
      computeChangeRateStr old new = "未知")
    ∧ (∀ (old new : String) (a b : Q) (r : PyFloat),
        pyFloatParse old = some (.finite a) → a.num ≠ 0 →
        pyFloatParse new = some (.finite b) →
        pyDiv (pySub (.finite b) (.finite a)) (.finite a) = some r →
        computeChangeRateStr old new = formatChangeRate (pyMul r (.finite (qOfInt 100)))) := by
  refine ⟨?_, ?_, ?_⟩
  · intro old new h
    simp [computeChangeRateStr, h]
  · intro old new h
    cases hn : pyFloatParse new with
    | none => simp [computeChangeRateStr, h, hn]
    | some v =>
      have hdiv : pyDiv (pySub v (.finite qZero)) (.finite qZero) = none := by
        cases pySub v (.finite qZero) <;> simp [pyDiv, qZero]
      simp [computeChangeRateStr, h, hn, hdiv]
  · intro old new a b r h1 hnz h3 h4
    simp [computeChangeRateStr, h1, h3, h4]

/-- Witness for C9: `"abc"` as old price is unknown; old `"10.0"` and
new `"12.0"` give `"+20.0%"`. -/
theorem change_rate_formula_witness :
    computeChangeRateStr "abc" "12.0" = "未知"
    ∧ computeChangeRateStr "10.0" "12.0" = "+20.0%" :=
  ⟨change_rate_formula.1 "abc" "12.0" (by decide),
   (change_rate_formula.2.2 "10.0" "12.0" (qOfInt 10) (qOfInt 12)
      (.finite (qmk 3602879701896397 18014398509481984)) (by decide) (by decide)
      (by decide) (by decide)).trans (by decide)⟩

/-- C10: `extract_item_id` returns the URL's first `id` query value only
when the parsed netloc contains `"taobao.com"`; for any URL whose netloc
does not, it returns `none` even if an `id` parameter is present, and
the orchestrator skips such a product. -/
theorem extract_item_id_host (url : String) :
    (containsSub (urlparseNetlocQuery url).1 "taobao.com".toList = false →
      extract_item_id url = none ∧ monitorSkipsProduct url = true)
    ∧ (∀ v : String, containsSub (urlparseNetlocQuery url).1 "taobao.com".toList = true →
      qsFirstIdValue (urlparseNetlocQuery url).2 = some v →
      extract_item_id url = some v) := by
  constructor
  · intro h
    have hd : containsSub (urlparseNetlocQuery url).1
        ['t', 'a', 'o', 'b', 'a', 'o', '.', 'c', 'o', 'm'] = false := h
    constructor
    · simp [extract_item_id, hd]
    · simp [monitorSkipsProduct, extract_item_id, hd]
  · intro v h hq
    have hd : containsSub (urlparseNetlocQuery url).1
        ['t', 'a', 'o', 'b', 'a', 'o', '.', 'c', 'o', 'm'] = true := h
    simp [extract_item_id, hd, hq]

/-- Witness for C10: a non-Taobao URL with an `id` parameter is refused
(and skipped), a Taobao item URL yields its id. -/
theorem extract_item_id_host_witness :
    extract_item_id "https://example.com/item.htm?id=123" = none
    ∧ extract_item_id "https://item.taobao.com/item.htm?id=456" = some "456" :=
  ⟨((extract_item_id_host "https://example.com/item.htm?id=123").1 (by decide)).1,
   (extract_item_id_host "https://item.taobao.com/item.htm?id=456").2 "456"
      (by decide) (by decide)⟩

end Taobao
